import Mathlib

/-!
Verification of the SString "Unicode Index Bridge" (NawaMan/SString,
`src/string.cpp` and the header in `src/unnamed/part_000`).

Shallow embedding: bytes are `Nat` values (`< 256` where it matters), the
UTF-8 byte buffer is a `List Nat`, and the UTF-16 code-unit sequence is a
`List Nat`.  A string view (`simple::String`) is a buffer plus a byte
range; the shared-pointer buffer identity of the C++ is modelled by list
equality (pointer equality implies content equality, and every use of the
fast path agrees with the slow path whenever contents agree).
Fallible operations (those that throw `StringIndexOutOfBoundsException`)
return `Option`, with `none` for the throwing case.

The C++ decoding loop guards each multi-byte form with `str + k >= end`;
to keep the Lean definitions structurally recursive (hence computable by
`decide`), those guards are partially evaluated into the list patterns
`[]`, `[b]`, `[b, b1]`, `[b, b1, b2]`, `b :: b1 :: b2 :: b3 :: rest3`:
in a short pattern the "incomplete sequence" branch of a long form is
taken unconditionally, exactly as the C++ guard forces.
-/

/-- Embedding of the decoding loop of `String::get_utf16`
(`src/string.cpp` lines 357-446): UTF-8 bytes to UTF-16 code units with
the U+FFFD substitution policy.  Branch conditions use the same bit masks
as the C++ source (`(*str & 0xE0) == 0xC0`, ...); in the "invalid or
incomplete sequence" branches the C++ advances by one byte, modelled by
recursing on the bytes after the lead byte. -/
def get_utf16 : List Nat → List Nat
  | [] => []
  | [b] =>
    if b < 0x80 then [b]                 -- ASCII character
    else if b &&& 0xE0 = 0xC0 then [0xFFFD]  -- 2-byte lead, str + 1 >= end
    else if b &&& 0xF0 = 0xE0 then [0xFFFD]  -- 3-byte lead, str + 2 >= end
    else if b &&& 0xF8 = 0xF0 then [0xFFFD]  -- 4-byte lead, str + 3 >= end
    else [0xFFFD]                            -- invalid UTF-8 byte
  | [b, b1] =>
    if b < 0x80 then
      b :: get_utf16 [b1]
    else if b &&& 0xE0 = 0xC0 then
      if b1 &&& 0xC0 ≠ 0x80 then
        0xFFFD :: get_utf16 [b1]
      else
        let codepoint := ((b &&& 0x1F) <<< 6) ||| (b1 &&& 0x3F)
        if codepoint < 0x80 then [0xFFFD, 0xFFFD]
        else [codepoint]
    else if b &&& 0xF0 = 0xE0 then
      0xFFFD :: get_utf16 [b1]               -- str + 2 >= end
    else if b &&& 0xF8 = 0xF0 then
      0xFFFD :: get_utf16 [b1]               -- str + 3 >= end
    else
      0xFFFD :: get_utf16 [b1]
  | [b, b1, b2] =>
    if b < 0x80 then
      b :: get_utf16 [b1, b2]
    else if b &&& 0xE0 = 0xC0 then
      if b1 &&& 0xC0 ≠ 0x80 then
        0xFFFD :: get_utf16 [b1, b2]
      else
        let codepoint := ((b &&& 0x1F) <<< 6) ||| (b1 &&& 0x3F)
        if codepoint < 0x80 then 0xFFFD :: 0xFFFD :: get_utf16 [b2]
        else codepoint :: get_utf16 [b2]
    else if b &&& 0xF0 = 0xE0 then
      if b1 &&& 0xC0 ≠ 0x80 ∨ b2 &&& 0xC0 ≠ 0x80 then
        0xFFFD :: get_utf16 [b1, b2]
      else
        let codepoint := ((b &&& 0x0F) <<< 12) ||| ((b1 &&& 0x3F) <<< 6) ||| (b2 &&& 0x3F)
        if codepoint < 0x800 ∨ (0xD800 ≤ codepoint ∧ codepoint ≤ 0xDFFF) then
          [0xFFFD, 0xFFFD, 0xFFFD]
        else [codepoint]
    else if b &&& 0xF8 = 0xF0 then
      0xFFFD :: get_utf16 [b1, b2]           -- str + 3 >= end
    else
      0xFFFD :: get_utf16 [b1, b2]
  | b :: b1 :: b2 :: b3 :: rest3 =>
    if b < 0x80 then
      b :: get_utf16 (b1 :: b2 :: b3 :: rest3)
    else if b &&& 0xE0 = 0xC0 then
      if b1 &&& 0xC0 ≠ 0x80 then
        0xFFFD :: get_utf16 (b1 :: b2 :: b3 :: rest3)
      else
        let codepoint := ((b &&& 0x1F) <<< 6) ||| (b1 &&& 0x3F)
        if codepoint < 0x80 then 0xFFFD :: 0xFFFD :: get_utf16 (b2 :: b3 :: rest3)
        else codepoint :: get_utf16 (b2 :: b3 :: rest3)
    else if b &&& 0xF0 = 0xE0 then
      if b1 &&& 0xC0 ≠ 0x80 ∨ b2 &&& 0xC0 ≠ 0x80 then
        0xFFFD :: get_utf16 (b1 :: b2 :: b3 :: rest3)
      else
        let codepoint := ((b &&& 0x0F) <<< 12) ||| ((b1 &&& 0x3F) <<< 6) ||| (b2 &&& 0x3F)
        if codepoint < 0x800 ∨ (0xD800 ≤ codepoint ∧ codepoint ≤ 0xDFFF) then
          0xFFFD :: 0xFFFD :: 0xFFFD :: get_utf16 (b3 :: rest3)
        else codepoint :: get_utf16 (b3 :: rest3)
    else if b &&& 0xF8 = 0xF0 then
      if b1 &&& 0xC0 ≠ 0x80 ∨ b2 &&& 0xC0 ≠ 0x80 ∨ b3 &&& 0xC0 ≠ 0x80 then
        0xFFFD :: get_utf16 (b1 :: b2 :: b3 :: rest3)
      else
        let codepoint := ((b &&& 0x07) <<< 18) ||| ((b1 &&& 0x3F) <<< 12) |||
                         ((b2 &&& 0x3F) <<< 6) ||| (b3 &&& 0x3F)
        if codepoint < 0x10000 ∨ 0x10FFFF < codepoint then
          0xFFFD :: 0xFFFD :: 0xFFFD :: 0xFFFD :: get_utf16 rest3
        else
          (0xD800 + ((codepoint - 0x10000) >>> 10)) ::
          (0xDC00 + ((codepoint - 0x10000) &&& 0x3FF)) :: get_utf16 rest3
    else
      0xFFFD :: get_utf16 (b1 :: b2 :: b3 :: rest3)

/-- Embedding of `detail::count_utf16_code_units` (header, lines 112-184):
counts UTF-16 code units directly from the UTF-8 bytes, branch for branch
parallel to the decoder.  Same pattern layout as `get_utf16`. -/
def count_utf16_code_units : List Nat → Nat
  | [] => 0
  | [b] =>
    if b < 0x80 then 1
    else if b &&& 0xE0 = 0xC0 then 1
    else if b &&& 0xF0 = 0xE0 then 1
    else if b &&& 0xF8 = 0xF0 then 1
    else 1
  | [b, b1] =>
    if b < 0x80 then
      1 + count_utf16_code_units [b1]
    else if b &&& 0xE0 = 0xC0 then
      if b1 &&& 0xC0 ≠ 0x80 then
        1 + count_utf16_code_units [b1]
      else
        let codepoint := ((b &&& 0x1F) <<< 6) ||| (b1 &&& 0x3F)
        if codepoint < 0x80 then 2
        else 1
    else if b &&& 0xF0 = 0xE0 then
      1 + count_utf16_code_units [b1]
    else if b &&& 0xF8 = 0xF0 then
      1 + count_utf16_code_units [b1]
    else
      1 + count_utf16_code_units [b1]
  | [b, b1, b2] =>
    if b < 0x80 then
      1 + count_utf16_code_units [b1, b2]
    else if b &&& 0xE0 = 0xC0 then
      if b1 &&& 0xC0 ≠ 0x80 then
        1 + count_utf16_code_units [b1, b2]
      else
        let codepoint := ((b &&& 0x1F) <<< 6) ||| (b1 &&& 0x3F)
        if codepoint < 0x80 then 2 + count_utf16_code_units [b2]
        else 1 + count_utf16_code_units [b2]
    else if b &&& 0xF0 = 0xE0 then
      if b1 &&& 0xC0 ≠ 0x80 ∨ b2 &&& 0xC0 ≠ 0x80 then
        1 + count_utf16_code_units [b1, b2]
      else
        let codepoint := ((b &&& 0x0F) <<< 12) ||| ((b1 &&& 0x3F) <<< 6) ||| (b2 &&& 0x3F)
        if codepoint < 0x800 ∨ (0xD800 ≤ codepoint ∧ codepoint ≤ 0xDFFF) then 3
        else 1
    else if b &&& 0xF8 = 0xF0 then
      1 + count_utf16_code_units [b1, b2]
    else
      1 + count_utf16_code_units [b1, b2]
  | b :: b1 :: b2 :: b3 :: rest3 =>
    if b < 0x80 then
      1 + count_utf16_code_units (b1 :: b2 :: b3 :: rest3)
    else if b &&& 0xE0 = 0xC0 then
      if b1 &&& 0xC0 ≠ 0x80 then
        1 + count_utf16_code_units (b1 :: b2 :: b3 :: rest3)
      else
        let codepoint := ((b &&& 0x1F) <<< 6) ||| (b1 &&& 0x3F)
        if codepoint < 0x80 then 2 + count_utf16_code_units (b2 :: b3 :: rest3)
        else 1 + count_utf16_code_units (b2 :: b3 :: rest3)
    else if b &&& 0xF0 = 0xE0 then
      if b1 &&& 0xC0 ≠ 0x80 ∨ b2 &&& 0xC0 ≠ 0x80 then
        1 + count_utf16_code_units (b1 :: b2 :: b3 :: rest3)
      else
        let codepoint := ((b &&& 0x0F) <<< 12) ||| ((b1 &&& 0x3F) <<< 6) ||| (b2 &&& 0x3F)
        if codepoint < 0x800 ∨ (0xD800 ≤ codepoint ∧ codepoint ≤ 0xDFFF) then
          3 + count_utf16_code_units (b3 :: rest3)
        else 1 + count_utf16_code_units (b3 :: rest3)
    else if b &&& 0xF8 = 0xF0 then
      if b1 &&& 0xC0 ≠ 0x80 ∨ b2 &&& 0xC0 ≠ 0x80 ∨ b3 &&& 0xC0 ≠ 0x80 then
        1 + count_utf16_code_units (b1 :: b2 :: b3 :: rest3)
      else
        let codepoint := ((b &&& 0x07) <<< 18) ||| ((b1 &&& 0x3F) <<< 12) |||
                         ((b2 &&& 0x3F) <<< 6) ||| (b3 &&& 0x3F)
        if codepoint < 0x10000 ∨ 0x10FFFF < codepoint then
          4 + count_utf16_code_units rest3
        else 2 + count_utf16_code_units rest3
    else
      1 + count_utf16_code_units (b1 :: b2 :: b3 :: rest3)

/-- Embedding of the UTF-16-index-to-UTF-8-byte-offset scan inside
`String::substring(beginIndex, endIndex)` (`src/string.cpp` lines
224-325).  The loop runs while bytes remain and `utf16_index < target`;
it classifies each sequence structurally only (it never re-checks
overlong / surrogate / out-of-range scalar values) and returns the
number of bytes consumed.  Same pattern layout as `get_utf16`. -/
def scanLoop : List Nat → Nat → Nat → Nat
  | [], _, _ => 0
  | [b], utf16_index, target =>
    if utf16_index < target then
      if b < 0x80 then 1
      else if b &&& 0xE0 = 0xC0 then 1     -- str + 1 >= end
      else if b &&& 0xF0 = 0xE0 then 1     -- str + 2 >= end
      else if b &&& 0xF8 = 0xF0 then 1     -- str + 3 >= end
      else 1
    else 0
  | [b, b1], utf16_index, target =>
    if utf16_index < target then
      if b < 0x80 then
        1 + scanLoop [b1] (utf16_index + 1) target
      else if b &&& 0xE0 = 0xC0 then
        if b1 &&& 0xC0 ≠ 0x80 then
          1 + scanLoop [b1] (utf16_index + 1) target
        else 2
      else if b &&& 0xF0 = 0xE0 then
        1 + scanLoop [b1] (utf16_index + 1) target
      else if b &&& 0xF8 = 0xF0 then
        1 + scanLoop [b1] (utf16_index + 1) target
      else
        1 + scanLoop [b1] (utf16_index + 1) target
    else 0
  | [b, b1, b2], utf16_index, target =>
    if utf16_index < target then
      if b < 0x80 then
        1 + scanLoop [b1, b2] (utf16_index + 1) target
      else if b &&& 0xE0 = 0xC0 then
        if b1 &&& 0xC0 ≠ 0x80 then
          1 + scanLoop [b1, b2] (utf16_index + 1) target
        else
          2 + scanLoop [b2] (utf16_index + 1) target
      else if b &&& 0xF0 = 0xE0 then
        if b1 &&& 0xC0 ≠ 0x80 ∨ b2 &&& 0xC0 ≠ 0x80 then
          1 + scanLoop [b1, b2] (utf16_index + 1) target
        else 3
      else if b &&& 0xF8 = 0xF0 then
        1 + scanLoop [b1, b2] (utf16_index + 1) target
      else
        1 + scanLoop [b1, b2] (utf16_index + 1) target
    else 0
  | b :: b1 :: b2 :: b3 :: rest3, utf16_index, target =>
    if utf16_index < target then
      if b < 0x80 then
        1 + scanLoop (b1 :: b2 :: b3 :: rest3) (utf16_index + 1) target
      else if b &&& 0xE0 = 0xC0 then
        if b1 &&& 0xC0 ≠ 0x80 then
          1 + scanLoop (b1 :: b2 :: b3 :: rest3) (utf16_index + 1) target
        else
          2 + scanLoop (b2 :: b3 :: rest3) (utf16_index + 1) target
      else if b &&& 0xF0 = 0xE0 then
        if b1 &&& 0xC0 ≠ 0x80 ∨ b2 &&& 0xC0 ≠ 0x80 then
          1 + scanLoop (b1 :: b2 :: b3 :: rest3) (utf16_index + 1) target
        else
          3 + scanLoop (b3 :: rest3) (utf16_index + 1) target
      else if b &&& 0xF8 = 0xF0 then
        if b1 &&& 0xC0 ≠ 0x80 ∨ b2 &&& 0xC0 ≠ 0x80 ∨ b3 &&& 0xC0 ≠ 0x80 then
          1 + scanLoop (b1 :: b2 :: b3 :: rest3) (utf16_index + 1) target
        else
          4 + scanLoop rest3 (utf16_index + 2) target  -- surrogate pair: 2 units
      else
        1 + scanLoop (b1 :: b2 :: b3 :: rest3) (utf16_index + 1) target
    else 0

/-- The byte-offset translation used by `substring` for one bound:
scan from the view's first byte with a running UTF-16 unit count of 0. -/
def unit_index_to_byte_offset (bytes : List Nat) (target : Nat) : Nat :=
  scanLoop bytes 0 target

/-- UTF-16 high surrogate test, `0xD800 <= u && u <= 0xDBFF`. -/
def isHighSurrogate (u : Nat) : Bool :=
  decide (0xD800 ≤ u ∧ u ≤ 0xDBFF)

/-- UTF-16 low surrogate test, `0xDC00 <= u && u <= 0xDFFF`. -/
def isLowSurrogate (u : Nat) : Bool :=
  decide (0xDC00 ≤ u ∧ u ≤ 0xDFFF)

/-- A UTF-16 unit sequence is well paired when every high surrogate is
immediately followed by a low surrogate and no low surrogate appears
except as the second half of such a pair. -/
def wellPaired : List Nat → Bool
  | [] => true
  | [a] => !isHighSurrogate a && !isLowSurrogate a
  | a :: b :: rest2 =>
    if isHighSurrogate a then
      isLowSurrogate b && wellPaired rest2
    else
      !isLowSurrogate a && wellPaired (b :: rest2)

/-- Whether the unit sequence contains an adjacent high-surrogate /
low-surrogate pair somewhere. -/
def hasSurrogatePair : List Nat → Bool
  | a :: b :: rest => (isHighSurrogate a && isLowSurrogate b) || hasSurrogatePair (b :: rest)
  | _ => false

namespace Simple

/-- The view data of `simple::String`: shared immutable buffer plus a byte
range.  The UTF-16 cache is not part of the state: it is a memoization of
the pure function `get_utf16` over the view bytes, so the model computes
it on demand (idempotent by purity). -/
structure String where
  data_ : List Nat
  offset_ : Nat
  length_ : Nat
deriving DecidableEq

/-- The bytes of the view: `data_[offset_ .. offset_ + length_)`. -/
def String.viewBytes (s : String) : List Nat :=
  (s.data_.drop s.offset_).take s.length_

/-- The view invariant maintained by every constructor and by `substring`:
the byte range lies inside the buffer. -/
def String.wf (s : String) : Prop :=
  s.offset_ + s.length_ ≤ s.data_.length

instance (s : String) : Decidable s.wf := by
  unfold String.wf; infer_instance

/-- The cached UTF-16 form of the view (`String::get_utf16`). -/
def String.utf16 (s : String) : List Nat :=
  get_utf16 s.viewBytes

/-- `String::length()` on a view without a populated cache
(`src/string.cpp` lines 55-72): 0 for an empty byte range, otherwise
`detail::count_utf16_code_units` over the view bytes. -/
def String.length (s : String) : Nat :=
  if s.length_ = 0 then 0 else count_utf16_code_units s.viewBytes

/-- `String::is_empty()` (lines 74-76): tests the byte length. -/
def String.is_empty (s : String) : Bool :=
  s.length_ == 0

/-- `String::equals` (lines 78-103): fast path on shared buffer identity
with identical range, then a byte-length check, then a byte-by-byte loop
over `min` of the byte lengths. -/
def String.equals (s other : String) : Bool :=
  if s.data_ = other.data_ ∧ s.offset_ = other.offset_ ∧ s.length_ = other.length_ then
    true
  else if s.length_ ≠ other.length_ then
    false
  else
    decide (∀ i, i < min s.length_ other.length_ →
      s.data_.getD (s.offset_ + i) 0 = other.data_.getD (other.offset_ + i) 0)

/-- `String::code_point_at` (lines 124-137): `none` models the thrown
`StringIndexOutOfBoundsException`. -/
def String.code_point_at (s : String) (index : Nat) : Option Nat :=
  let utf16 := s.utf16
  if index ≥ utf16.length then
    none
  else
    let first := utf16.getD index 0
    if 0xD800 ≤ first ∧ first ≤ 0xDBFF ∧ index + 1 < utf16.length then
      let second := utf16.getD (index + 1) 0
      if 0xDC00 ≤ second ∧ second ≤ 0xDFFF then
        some (0x10000 + ((first - 0xD800) <<< 10) + (second - 0xDC00))
      else
        some first
    else
      some first

/-- The counting loop of `String::code_point_count` (lines 159-169):
one count per iteration, skipping the low half of a surrogate pair. -/
def cpcLoop (utf16 : List Nat) (i end_index : Nat) : Nat :=
  if i < end_index then
    let ch := utf16.getD i 0
    if 0xD800 ≤ ch ∧ ch ≤ 0xDBFF ∧ i + 1 < end_index ∧
       0xDC00 ≤ utf16.getD (i + 1) 0 ∧ utf16.getD (i + 1) 0 ≤ 0xDFFF then
      1 + cpcLoop utf16 (i + 2) end_index
    else
      1 + cpcLoop utf16 (i + 1) end_index
  else 0
termination_by end_index - i
decreasing_by all_goals omega

/-- `String::code_point_count` (lines 154-171). -/
def String.code_point_count (s : String) (begin_index end_index : Nat) : Option Nat :=
  let utf16 := s.utf16
  if begin_index > end_index ∨ end_index > utf16.length then
    none
  else
    some (cpcLoop utf16 begin_index end_index)

/-- `String::substring(beginIndex, endIndex)` (lines 192-329): validation,
full-range and empty-range short cuts, then byte-offset translation of
both bounds via the structural scan. -/
def String.substring (s : String) (beginIndex endIndex : Nat) : Option String :=
  let utf16 := s.utf16
  let len := utf16.length
  if beginIndex > len then none
  else if endIndex > len then none
  else if beginIndex > endIndex then none
  else if beginIndex = 0 ∧ endIndex = len then some s
  else if beginIndex = endIndex then some ⟨[], 0, 0⟩
  else
    let utf8_begin := if 0 < beginIndex then unit_index_to_byte_offset s.viewBytes beginIndex else 0
    let utf8_end := if 0 < endIndex then unit_index_to_byte_offset s.viewBytes endIndex else 0
    some ⟨s.data_, s.offset_ + utf8_begin, utf8_end - utf8_begin⟩

/-- `String::startsWith(prefix, offset)` (lines 593-622): bounds check on
the offset first (throwing, modelled as `none`), then the empty-prefix
short cut, then a direct unit-range comparison. -/
def String.startsWith (s p : String) (offset : Nat) : Option Bool :=
  let utf16 := s.utf16
  let p_utf16 := p.utf16
  if offset > utf16.length then
    none
  else if p_utf16.length = 0 then
    some true
  else if utf16.length - offset < p_utf16.length then
    some false
  else
    some (decide (∀ i, i < p_utf16.length →
      utf16.getD (offset + i) 0 = p_utf16.getD i 0))

/-- `String::endsWith(suffix)` (lines 624-651). -/
def String.endsWith (s suf : String) : Bool :=
  let utf16 := s.utf16
  let suf_utf16 := suf.utf16
  if suf_utf16.length = 0 then
    true
  else if utf16.length < suf_utf16.length then
    false
  else
    let start := utf16.length - suf_utf16.length
    decide (∀ i, i < suf_utf16.length →
      utf16.getD (start + i) 0 = suf_utf16.getD i 0)

end Simple

/-- Modelled from the spec, section 4.1 (UTF-8 Decoder): the substitution
policy stated with byte-value ranges (`110xxxxx` is `0xC0..0xDF`,
continuation `10xxxxxx` is `0x80..0xBF`, ...) and arithmetic scalar
assembly, written independently of the C++ bit-mask formulation, for
comparison with `get_utf16`.  A lead byte whose required continuation
bytes extend past the end of the range is structurally incomplete: one
`U+FFFD`, advance one byte (hence the short patterns collapse every
non-ASCII byte near the end of the range into that rule). -/
def specDecode : List Nat → List Nat
  | [] => []
  | [b] =>
    if b < 0x80 then [b]
    else [0xFFFD]        -- any lead needing continuations, or a stray byte
  | [b, b1] =>
    if b < 0x80 then
      b :: specDecode [b1]
    else if 0xC0 ≤ b ∧ b ≤ 0xDF then
      if 0x80 ≤ b1 ∧ b1 ≤ 0xBF then
        let v := (b - 0xC0) * 0x40 + (b1 - 0x80)
        if v < 0x80 then [0xFFFD, 0xFFFD]
        else [v]
      else 0xFFFD :: specDecode [b1]
    else
      0xFFFD :: specDecode [b1]   -- longer lead incomplete, or stray byte
  | [b, b1, b2] =>
    if b < 0x80 then
      b :: specDecode [b1, b2]
    else if 0xC0 ≤ b ∧ b ≤ 0xDF then
      if 0x80 ≤ b1 ∧ b1 ≤ 0xBF then
        let v := (b - 0xC0) * 0x40 + (b1 - 0x80)
        if v < 0x80 then 0xFFFD :: 0xFFFD :: specDecode [b2]
        else v :: specDecode [b2]
      else 0xFFFD :: specDecode [b1, b2]
    else if 0xE0 ≤ b ∧ b ≤ 0xEF then
      if (0x80 ≤ b1 ∧ b1 ≤ 0xBF) ∧ (0x80 ≤ b2 ∧ b2 ≤ 0xBF) then
        let v := (b - 0xE0) * 0x1000 + (b1 - 0x80) * 0x40 + (b2 - 0x80)
        if v < 0x800 ∨ (0xD800 ≤ v ∧ v ≤ 0xDFFF) then [0xFFFD, 0xFFFD, 0xFFFD]
        else [v]
      else 0xFFFD :: specDecode [b1, b2]
    else
      0xFFFD :: specDecode [b1, b2]   -- 4-byte lead incomplete, or stray byte
  | b :: b1 :: b2 :: b3 :: rest3 =>
    if b < 0x80 then
      b :: specDecode (b1 :: b2 :: b3 :: rest3)
    else if 0xC0 ≤ b ∧ b ≤ 0xDF then
      if 0x80 ≤ b1 ∧ b1 ≤ 0xBF then
        let v := (b - 0xC0) * 0x40 + (b1 - 0x80)
        if v < 0x80 then 0xFFFD :: 0xFFFD :: specDecode (b2 :: b3 :: rest3)
        else v :: specDecode (b2 :: b3 :: rest3)
      else 0xFFFD :: specDecode (b1 :: b2 :: b3 :: rest3)
    else if 0xE0 ≤ b ∧ b ≤ 0xEF then
      if (0x80 ≤ b1 ∧ b1 ≤ 0xBF) ∧ (0x80 ≤ b2 ∧ b2 ≤ 0xBF) then
        let v := (b - 0xE0) * 0x1000 + (b1 - 0x80) * 0x40 + (b2 - 0x80)
        if v < 0x800 ∨ (0xD800 ≤ v ∧ v ≤ 0xDFFF) then
          0xFFFD :: 0xFFFD :: 0xFFFD :: specDecode (b3 :: rest3)
        else v :: specDecode (b3 :: rest3)
      else 0xFFFD :: specDecode (b1 :: b2 :: b3 :: rest3)
    else if 0xF0 ≤ b ∧ b ≤ 0xF7 then
      if (0x80 ≤ b1 ∧ b1 ≤ 0xBF) ∧ (0x80 ≤ b2 ∧ b2 ≤ 0xBF) ∧ (0x80 ≤ b3 ∧ b3 ≤ 0xBF) then
        let v := (b - 0xF0) * 0x40000 + (b1 - 0x80) * 0x1000 + (b2 - 0x80) * 0x40 + (b3 - 0x80)
        if v < 0x10000 ∨ 0x10FFFF < v then
          0xFFFD :: 0xFFFD :: 0xFFFD :: 0xFFFD :: specDecode rest3
        else
          (0xD800 + (v - 0x10000) / 0x400) :: (0xDC00 + (v - 0x10000) % 0x400) :: specDecode rest3
      else 0xFFFD :: specDecode (b1 :: b2 :: b3 :: rest3)
    else
      0xFFFD :: specDecode (b1 :: b2 :: b3 :: rest3)

/-- Modelled from the amended reading of spec section 4.3: the byte-offset
scan counts sequences structurally only (a complete 2- or 3-byte sequence
is 1 unit, a complete 4-byte sequence is 2 units, anything else 1 unit per
byte), with byte-value range conditions instead of bit masks. -/
def scanOffsetSpec : List Nat → Nat → Nat → Nat
  | [], _, _ => 0
  | [_b], idx, target =>
    if idx < target then 1 else 0
  | [b, b1], idx, target =>
    if idx < target then
      if b < 0x80 then
        1 + scanOffsetSpec [b1] (idx + 1) target
      else if 0xC0 ≤ b ∧ b ≤ 0xDF then
        if 0x80 ≤ b1 ∧ b1 ≤ 0xBF then 2
        else 1 + scanOffsetSpec [b1] (idx + 1) target
      else
        1 + scanOffsetSpec [b1] (idx + 1) target
    else 0
  | [b, b1, b2], idx, target =>
    if idx < target then
      if b < 0x80 then
        1 + scanOffsetSpec [b1, b2] (idx + 1) target
      else if 0xC0 ≤ b ∧ b ≤ 0xDF then
        if 0x80 ≤ b1 ∧ b1 ≤ 0xBF then
          2 + scanOffsetSpec [b2] (idx + 1) target
        else 1 + scanOffsetSpec [b1, b2] (idx + 1) target
      else if 0xE0 ≤ b ∧ b ≤ 0xEF then
        if (0x80 ≤ b1 ∧ b1 ≤ 0xBF) ∧ (0x80 ≤ b2 ∧ b2 ≤ 0xBF) then 3
        else 1 + scanOffsetSpec [b1, b2] (idx + 1) target
      else
        1 + scanOffsetSpec [b1, b2] (idx + 1) target
    else 0
  | b :: b1 :: b2 :: b3 :: rest3, idx, target =>
    if idx < target then
      if b < 0x80 then
        1 + scanOffsetSpec (b1 :: b2 :: b3 :: rest3) (idx + 1) target
      else if 0xC0 ≤ b ∧ b ≤ 0xDF then
        if 0x80 ≤ b1 ∧ b1 ≤ 0xBF then
          2 + scanOffsetSpec (b2 :: b3 :: rest3) (idx + 1) target
        else 1 + scanOffsetSpec (b1 :: b2 :: b3 :: rest3) (idx + 1) target
      else if 0xE0 ≤ b ∧ b ≤ 0xEF then
        if (0x80 ≤ b1 ∧ b1 ≤ 0xBF) ∧ (0x80 ≤ b2 ∧ b2 ≤ 0xBF) then
          3 + scanOffsetSpec (b3 :: rest3) (idx + 1) target
        else 1 + scanOffsetSpec (b1 :: b2 :: b3 :: rest3) (idx + 1) target
      else if 0xF0 ≤ b ∧ b ≤ 0xF7 then
        if (0x80 ≤ b1 ∧ b1 ≤ 0xBF) ∧ (0x80 ≤ b2 ∧ b2 ≤ 0xBF) ∧ (0x80 ≤ b3 ∧ b3 ≤ 0xBF) then
          4 + scanOffsetSpec rest3 (idx + 2) target
        else 1 + scanOffsetSpec (b1 :: b2 :: b3 :: rest3) (idx + 1) target
      else
        1 + scanOffsetSpec (b1 :: b2 :: b3 :: rest3) (idx + 1) target
    else 0

/-! ### Bridging lemmas between the C++ bit-mask formulation and the
spec's byte-value-range formulation -/

set_option maxRecDepth 8000 in
theorem mask_E0_iff : ∀ b : Nat, b < 256 → (b &&& 0xE0 = 0xC0 ↔ 0xC0 ≤ b ∧ b ≤ 0xDF) := by
  decide

set_option maxRecDepth 8000 in
theorem mask_F0_iff : ∀ b : Nat, b < 256 → (b &&& 0xF0 = 0xE0 ↔ 0xE0 ≤ b ∧ b ≤ 0xEF) := by
  decide

set_option maxRecDepth 8000 in
theorem mask_F8_iff : ∀ b : Nat, b < 256 → (b &&& 0xF8 = 0xF0 ↔ 0xF0 ≤ b ∧ b ≤ 0xF7) := by
  decide

set_option maxRecDepth 8000 in
theorem mask_C0_iff : ∀ b : Nat, b < 256 → (b &&& 0xC0 = 0x80 ↔ 0x80 ≤ b ∧ b ≤ 0xBF) := by
  decide

theorem and_1F_eq (b : Nat) (h1 : 0xC0 ≤ b) (h2 : b ≤ 0xDF) : b &&& 0x1F = b - 0xC0 := by
  have h := Nat.and_pow_two_sub_one_eq_mod b 5
  norm_num at h
  rw [h]
  omega

theorem and_0F_eq (b : Nat) (h1 : 0xE0 ≤ b) (h2 : b ≤ 0xEF) : b &&& 0x0F = b - 0xE0 := by
  have h := Nat.and_pow_two_sub_one_eq_mod b 4
  norm_num at h
  rw [h]
  omega

theorem and_07_eq (b : Nat) (h1 : 0xF0 ≤ b) (h2 : b ≤ 0xF7) : b &&& 0x07 = b - 0xF0 := by
  have h := Nat.and_pow_two_sub_one_eq_mod b 3
  norm_num at h
  rw [h]
  omega

theorem and_3F_eq (b : Nat) (h1 : 0x80 ≤ b) (h2 : b ≤ 0xBF) : b &&& 0x3F = b - 0x80 := by
  have h := Nat.and_pow_two_sub_one_eq_mod b 6
  norm_num at h
  rw [h]
  omega

theorem and_3FF_eq (x : Nat) : x &&& 0x3FF = x % 0x400 := by
  have h := Nat.and_pow_two_sub_one_eq_mod x 10
  norm_num at h
  exact h

theorem shr_10_eq (x : Nat) : x >>> 10 = x / 0x400 := by
  have h := Nat.shiftRight_eq_div_pow x 10
  norm_num at h
  exact h

theorem shl_or_eq_add (x y n : Nat) (h : y < 2 ^ n) : (x <<< n) ||| y = x * 2 ^ n + y := by
  rw [Nat.shiftLeft_eq]
  calc x * 2 ^ n ||| y = 2 ^ n * x ||| y := by rw [Nat.mul_comm]
    _ = 2 ^ n * x + y := (Nat.mul_add_lt_is_or h x).symm
    _ = x * 2 ^ n + y := by rw [Nat.mul_comm]

theorem assemble2 (b b1 : Nat) (hb1 : 0xC0 ≤ b) (hb2 : b ≤ 0xDF)
    (hc1 : 0x80 ≤ b1) (hc2 : b1 ≤ 0xBF) :
    ((b &&& 0x1F) <<< 6) ||| (b1 &&& 0x3F) = (b - 0xC0) * 0x40 + (b1 - 0x80) := by
  rw [and_1F_eq b hb1 hb2, and_3F_eq b1 hc1 hc2,
    shl_or_eq_add (b - 0xC0) (b1 - 0x80) 6 (by omega)]
  norm_num

theorem assemble3 (b b1 b2 : Nat) (hb1 : 0xE0 ≤ b) (hb2 : b ≤ 0xEF)
    (hc1 : 0x80 ≤ b1) (hc2 : b1 ≤ 0xBF) (hd1 : 0x80 ≤ b2) (hd2 : b2 ≤ 0xBF) :
    ((b &&& 0x0F) <<< 12) ||| ((b1 &&& 0x3F) <<< 6) ||| (b2 &&& 0x3F)
      = (b - 0xE0) * 0x1000 + (b1 - 0x80) * 0x40 + (b2 - 0x80) := by
  rw [and_0F_eq b hb1 hb2, and_3F_eq b1 hc1 hc2, and_3F_eq b2 hd1 hd2, Nat.or_assoc,
    shl_or_eq_add (b1 - 0x80) (b2 - 0x80) 6 (by omega),
    shl_or_eq_add (b - 0xE0) _ 12 (by omega)]
  norm_num
  omega

theorem assemble4 (b b1 b2 b3 : Nat) (hb1 : 0xF0 ≤ b) (hb2 : b ≤ 0xF7)
    (hc1 : 0x80 ≤ b1) (hc2 : b1 ≤ 0xBF) (hd1 : 0x80 ≤ b2) (hd2 : b2 ≤ 0xBF)
    (he1 : 0x80 ≤ b3) (he2 : b3 ≤ 0xBF) :
    ((b &&& 0x07) <<< 18) ||| ((b1 &&& 0x3F) <<< 12) ||| ((b2 &&& 0x3F) <<< 6) ||| (b3 &&& 0x3F)
      = (b - 0xF0) * 0x40000 + (b1 - 0x80) * 0x1000 + (b2 - 0x80) * 0x40 + (b3 - 0x80) := by
  rw [and_07_eq b hb1 hb2, and_3F_eq b1 hc1 hc2, and_3F_eq b2 hd1 hd2, and_3F_eq b3 he1 he2,
    Nat.or_assoc, Nat.or_assoc,
    shl_or_eq_add (b2 - 0x80) (b3 - 0x80) 6 (by omega),
    shl_or_eq_add (b1 - 0x80) _ 12 (by omega),
    shl_or_eq_add (b - 0xF0) _ 18 (by omega)]
  norm_num
  omega

/-! ### Agreement of the unit-counting routine with the decoder -/

set_option maxHeartbeats 1000000 in
/-- `detail::count_utf16_code_units` counts exactly the units that
`String::get_utf16` emits, for every byte sequence. -/
theorem count_eq_decode_length : ∀ l : List Nat,
    count_utf16_code_units l = (get_utf16 l).length := by
  intro l
  induction l using get_utf16.induct <;>
    simp [get_utf16, count_utf16_code_units, *] <;>
    (try (split_ifs <;> simp_all)) <;>
    omega

set_option maxHeartbeats 1000000 in
/-- The decoder never maps a nonempty byte range to an empty unit
sequence: every step consumes at least one byte and emits at least one
unit. -/
theorem get_utf16_ne_nil : ∀ l : List Nat, l ≠ [] → get_utf16 l ≠ [] := by
  intro l
  induction l using get_utf16.induct <;>
    simp [get_utf16, *]

set_option maxHeartbeats 1600000 in
/-- Helper for C1: over bytes (`< 256`), the C++ decoder agrees with the
range-formulated substitution policy of spec section 4.1. -/
theorem get_utf16_eq_specDecode : ∀ l : List Nat,
    (∀ b ∈ l, b < 256) → get_utf16 l = specDecode l := by
  have main : ∀ (n : Nat) (l : List Nat), l.length ≤ n → (∀ b ∈ l, b < 256) →
      get_utf16 l = specDecode l := by
    intro n
    induction n with
    | zero =>
      intro l hl _
      have hnil : l = [] := List.eq_nil_of_length_eq_zero (Nat.le_zero.mp hl)
      subst hnil
      rfl
    | succ n ih =>
      intro l hl hball
      rcases l with _ | ⟨b, _ | ⟨b1, _ | ⟨b2, _ | ⟨b3, rest3⟩⟩⟩⟩
      · rfl
      · -- shape [b]
        by_cases hA : b < 0x80
        · simp [get_utf16.eq_2, specDecode.eq_2, hA]
        · simp only [get_utf16.eq_2, specDecode.eq_2, if_neg hA]
          split_ifs <;> rfl
      · -- shape [b, b1]
        have hb0 : b < 256 := hball b (by simp)
        have hb1 : b1 < 256 := hball b1 (by simp)
        have hl1 : ([b1] : List Nat).length ≤ n := by simp at hl ⊢; omega
        have hm1 : ∀ x ∈ ([b1] : List Nat), x < 256 :=
          fun x hx => hball x (List.mem_cons_of_mem b hx)
        have ih1 : get_utf16 [b1] = specDecode [b1] := ih [b1] hl1 hm1
        by_cases hA : b < 0x80
        · simp [get_utf16.eq_3, specDecode.eq_3, hA, ih1]
        · by_cases h2 : 0xC0 ≤ b ∧ b ≤ 0xDF
          · have hm : b &&& 0xE0 = 0xC0 := (mask_E0_iff b hb0).mpr h2
            by_cases hc : 0x80 ≤ b1 ∧ b1 ≤ 0xBF
            · have hcm : b1 &&& 0xC0 = 0x80 := (mask_C0_iff b1 hb1).mpr hc
              have hv := assemble2 b b1 h2.1 h2.2 hc.1 hc.2
              simp [get_utf16.eq_3, specDecode.eq_3, hA, hm, hcm, hv,
                h2.1, h2.2, hc.1, hc.2]
            · have hcm : b1 &&& 0xC0 ≠ 0x80 := fun heq => hc ((mask_C0_iff b1 hb1).mp heq)
              simp [get_utf16.eq_3, specDecode.eq_3, hA, hm, hcm, h2.1, h2.2, hc, ih1]
          · have hm : ¬ (b &&& 0xE0 = 0xC0) := fun heq => h2 ((mask_E0_iff b hb0).mp heq)
            simp only [get_utf16.eq_3, specDecode.eq_3, if_neg hA, if_neg hm, if_neg h2]
            split_ifs <;> simp [ih1]
      · -- shape [b, b1, b2]
        have hb0 : b < 256 := hball b (by simp)
        have hb1 : b1 < 256 := hball b1 (by simp)
        have hb2 : b2 < 256 := hball b2 (by simp)
        have hl12 : ([b1, b2] : List Nat).length ≤ n := by simp at hl ⊢; omega
        have hl2 : ([b2] : List Nat).length ≤ n := by simp at hl ⊢; omega
        have hm12 : ∀ x ∈ ([b1, b2] : List Nat), x < 256 :=
          fun x hx => hball x (List.mem_cons_of_mem b hx)
        have hm2 : ∀ x ∈ ([b2] : List Nat), x < 256 :=
          fun x hx => hball x (List.mem_cons_of_mem b (List.mem_cons_of_mem b1 hx))
        have ih12 : get_utf16 [b1, b2] = specDecode [b1, b2] := ih [b1, b2] hl12 hm12
        have ih2 : get_utf16 [b2] = specDecode [b2] := ih [b2] hl2 hm2
        by_cases hA : b < 0x80
        · simp [get_utf16.eq_4, specDecode.eq_4, hA, ih12]
        · by_cases h2 : 0xC0 ≤ b ∧ b ≤ 0xDF
          · have hm : b &&& 0xE0 = 0xC0 := (mask_E0_iff b hb0).mpr h2
            by_cases hc : 0x80 ≤ b1 ∧ b1 ≤ 0xBF
            · have hcm : b1 &&& 0xC0 = 0x80 := (mask_C0_iff b1 hb1).mpr hc
              have hv := assemble2 b b1 h2.1 h2.2 hc.1 hc.2
              simp [get_utf16.eq_4, specDecode.eq_4, hA, hm, hcm, hv,
                h2.1, h2.2, hc.1, hc.2, ih2]
            · have hcm : b1 &&& 0xC0 ≠ 0x80 := fun heq => hc ((mask_C0_iff b1 hb1).mp heq)
              simp [get_utf16.eq_4, specDecode.eq_4, hA, hm, hcm, h2.1, h2.2, hc, ih12]
          · have hm : ¬ (b &&& 0xE0 = 0xC0) := fun heq => h2 ((mask_E0_iff b hb0).mp heq)
            by_cases h3 : 0xE0 ≤ b ∧ b ≤ 0xEF
            · have hmf : b &&& 0xF0 = 0xE0 := (mask_F0_iff b hb0).mpr h3
              by_cases hc12 : (0x80 ≤ b1 ∧ b1 ≤ 0xBF) ∧ (0x80 ≤ b2 ∧ b2 ≤ 0xBF)
              · have hcm1 : b1 &&& 0xC0 = 0x80 := (mask_C0_iff b1 hb1).mpr hc12.1
                have hcm2 : b2 &&& 0xC0 = 0x80 := (mask_C0_iff b2 hb2).mpr hc12.2
                have hv := assemble3 b b1 b2 h3.1 h3.2 hc12.1.1 hc12.1.2 hc12.2.1 hc12.2.2
                simp [get_utf16.eq_4, specDecode.eq_4, hA, hm, hmf, hcm1, hcm2, hv,
                  h2, h3.1, h3.2, hc12.1.1, hc12.1.2, hc12.2.1, hc12.2.2]
              · have hcor : b1 &&& 0xC0 ≠ 0x80 ∨ b2 &&& 0xC0 ≠ 0x80 := by
                  by_cases hx1 : 0x80 ≤ b1 ∧ b1 ≤ 0xBF
                  · right
                    intro heq
                    exact hc12 ⟨hx1, (mask_C0_iff b2 hb2).mp heq⟩
                  · left
                    intro heq
                    exact hx1 ((mask_C0_iff b1 hb1).mp heq)
                simp [get_utf16.eq_4, specDecode.eq_4, hA, hm, hmf, hcor,
                  h2, h3.1, h3.2, hc12, ih12]
            · have hmf : ¬ (b &&& 0xF0 = 0xE0) := fun heq => h3 ((mask_F0_iff b hb0).mp heq)
              simp only [get_utf16.eq_4, specDecode.eq_4, if_neg hA, if_neg hm,
                if_neg hmf, if_neg h2, if_neg h3]
              split_ifs <;> simp [ih12]
      · -- shape b :: b1 :: b2 :: b3 :: rest3
        have hb0 : b < 256 := hball b (by simp)
        have hb1 : b1 < 256 := hball b1 (by simp)
        have hb2 : b2 < 256 := hball b2 (by simp)
        have hb3 : b3 < 256 := hball b3 (by simp)
        have hlen : (b :: b1 :: b2 :: b3 :: rest3).length ≤ n + 1 := hl
        have hl123 : (b1 :: b2 :: b3 :: rest3).length ≤ n := by
          simp only [List.length_cons] at hlen ⊢; omega
        have hl23 : (b2 :: b3 :: rest3).length ≤ n := by
          simp only [List.length_cons] at hlen ⊢; omega
        have hl3 : (b3 :: rest3).length ≤ n := by
          simp only [List.length_cons] at hlen ⊢; omega
        have hl4 : rest3.length ≤ n := by
          simp only [List.length_cons] at hlen ⊢; omega
        have hmem123 : ∀ x ∈ b1 :: b2 :: b3 :: rest3, x < 256 :=
          fun x hx => hball x (List.mem_cons_of_mem b hx)
        have hmem23 : ∀ x ∈ b2 :: b3 :: rest3, x < 256 :=
          fun x hx => hmem123 x (List.mem_cons_of_mem b1 hx)
        have hmem3 : ∀ x ∈ b3 :: rest3, x < 256 :=
          fun x hx => hmem23 x (List.mem_cons_of_mem b2 hx)
        have hmem4 : ∀ x ∈ rest3, x < 256 :=
          fun x hx => hmem3 x (List.mem_cons_of_mem b3 hx)
        have ih123 : get_utf16 (b1 :: b2 :: b3 :: rest3) = specDecode (b1 :: b2 :: b3 :: rest3) :=
          ih _ hl123 hmem123
        have ih23 : get_utf16 (b2 :: b3 :: rest3) = specDecode (b2 :: b3 :: rest3) :=
          ih _ hl23 hmem23
        have ih3 : get_utf16 (b3 :: rest3) = specDecode (b3 :: rest3) := ih _ hl3 hmem3
        have ih4 : get_utf16 rest3 = specDecode rest3 := ih _ hl4 hmem4
        by_cases hA : b < 0x80
        · simp [get_utf16.eq_5, specDecode.eq_5, hA, ih123]
        · by_cases h2 : 0xC0 ≤ b ∧ b ≤ 0xDF
          · have hm : b &&& 0xE0 = 0xC0 := (mask_E0_iff b hb0).mpr h2
            by_cases hc : 0x80 ≤ b1 ∧ b1 ≤ 0xBF
            · have hcm : b1 &&& 0xC0 = 0x80 := (mask_C0_iff b1 hb1).mpr hc
              have hv := assemble2 b b1 h2.1 h2.2 hc.1 hc.2
              simp [get_utf16.eq_5, specDecode.eq_5, hA, hm, hcm, hv,
                h2.1, h2.2, hc.1, hc.2, ih23]
            · have hcm : b1 &&& 0xC0 ≠ 0x80 := fun heq => hc ((mask_C0_iff b1 hb1).mp heq)
              simp [get_utf16.eq_5, specDecode.eq_5, hA, hm, hcm, h2.1, h2.2, hc, ih123]
          · have hm : ¬ (b &&& 0xE0 = 0xC0) := fun heq => h2 ((mask_E0_iff b hb0).mp heq)
            by_cases h3 : 0xE0 ≤ b ∧ b ≤ 0xEF
            · have hmf : b &&& 0xF0 = 0xE0 := (mask_F0_iff b hb0).mpr h3
              by_cases hc12 : (0x80 ≤ b1 ∧ b1 ≤ 0xBF) ∧ (0x80 ≤ b2 ∧ b2 ≤ 0xBF)
              · have hcm1 : b1 &&& 0xC0 = 0x80 := (mask_C0_iff b1 hb1).mpr hc12.1
                have hcm2 : b2 &&& 0xC0 = 0x80 := (mask_C0_iff b2 hb2).mpr hc12.2
                have hv := assemble3 b b1 b2 h3.1 h3.2 hc12.1.1 hc12.1.2 hc12.2.1 hc12.2.2
                simp [get_utf16.eq_5, specDecode.eq_5, hA, hm, hmf, hcm1, hcm2, hv,
                  h2, h3.1, h3.2, hc12.1.1, hc12.1.2, hc12.2.1, hc12.2.2, ih3]
              · have hcor : b1 &&& 0xC0 ≠ 0x80 ∨ b2 &&& 0xC0 ≠ 0x80 := by
                  by_cases hx1 : 0x80 ≤ b1 ∧ b1 ≤ 0xBF
                  · right
                    intro heq
                    exact hc12 ⟨hx1, (mask_C0_iff b2 hb2).mp heq⟩
                  · left
                    intro heq
                    exact hx1 ((mask_C0_iff b1 hb1).mp heq)
                simp [get_utf16.eq_5, specDecode.eq_5, hA, hm, hmf, hcor,
                  h2, h3.1, h3.2, hc12, ih123]
            · have hmf : ¬ (b &&& 0xF0 = 0xE0) := fun heq => h3 ((mask_F0_iff b hb0).mp heq)
              by_cases h4 : 0xF0 ≤ b ∧ b ≤ 0xF7
              · have hmg : b &&& 0xF8 = 0xF0 := (mask_F8_iff b hb0).mpr h4
                by_cases hc123 : (0x80 ≤ b1 ∧ b1 ≤ 0xBF) ∧ (0x80 ≤ b2 ∧ b2 ≤ 0xBF) ∧
                    (0x80 ≤ b3 ∧ b3 ≤ 0xBF)
                · have hcm1 : b1 &&& 0xC0 = 0x80 := (mask_C0_iff b1 hb1).mpr hc123.1
                  have hcm2 : b2 &&& 0xC0 = 0x80 := (mask_C0_iff b2 hb2).mpr hc123.2.1
                  have hcm3 : b3 &&& 0xC0 = 0x80 := (mask_C0_iff b3 hb3).mpr hc123.2.2
                  have hv := assemble4 b b1 b2 b3 h4.1 h4.2 hc123.1.1 hc123.1.2
                    hc123.2.1.1 hc123.2.1.2 hc123.2.2.1 hc123.2.2.2
                  simp [get_utf16.eq_5, specDecode.eq_5, hA, hm, hmf, hmg,
                    hcm1, hcm2, hcm3, hv, shr_10_eq, and_3FF_eq,
                    h2, h3, h4.1, h4.2, hc123.1.1, hc123.1.2,
                    hc123.2.1.1, hc123.2.1.2, hc123.2.2.1, hc123.2.2.2, ih4]
                · have hcor : b1 &&& 0xC0 ≠ 0x80 ∨ b2 &&& 0xC0 ≠ 0x80 ∨ b3 &&& 0xC0 ≠ 0x80 := by
                    by_cases hx1 : 0x80 ≤ b1 ∧ b1 ≤ 0xBF
                    · by_cases hx2 : 0x80 ≤ b2 ∧ b2 ≤ 0xBF
                      · right; right
                        intro heq
                        exact hc123 ⟨hx1, hx2, (mask_C0_iff b3 hb3).mp heq⟩
                      · right; left
                        intro heq
                        exact hx2 ((mask_C0_iff b2 hb2).mp heq)
                    · left
                      intro heq
                      exact hx1 ((mask_C0_iff b1 hb1).mp heq)
                  simp [get_utf16.eq_5, specDecode.eq_5, hA, hm, hmf, hmg, hcor,
                    h2, h3, h4.1, h4.2, hc123, ih123]
              · have hmg : ¬ (b &&& 0xF8 = 0xF0) := fun heq => h4 ((mask_F8_iff b hb0).mp heq)
                simp [get_utf16.eq_5, specDecode.eq_5, if_neg hA, if_neg hm,
                  if_neg hmf, if_neg hmg, if_neg h2, if_neg h3, if_neg h4, ih123]
  intro l
  exact main l.length l le_rfl

set_option maxHeartbeats 1600000 in
/-- Helper for C3 (amended): over bytes (`< 256`), the byte-offset scan of
`substring` agrees with the structural-multiplicity formulation. -/
theorem scanLoop_eq_scanOffsetSpec : ∀ (l : List Nat) (idx target : Nat),
    (∀ b ∈ l, b < 256) → scanLoop l idx target = scanOffsetSpec l idx target := by
  have main : ∀ (n : Nat) (l : List Nat) (idx target : Nat), l.length ≤ n →
      (∀ b ∈ l, b < 256) → scanLoop l idx target = scanOffsetSpec l idx target := by
    intro n
    induction n with
    | zero =>
      intro l idx target hl _
      have hnil : l = [] := List.eq_nil_of_length_eq_zero (Nat.le_zero.mp hl)
      subst hnil
      rfl
    | succ n ih =>
      intro l idx target hl hball
      rcases l with _ | ⟨b, _ | ⟨b1, _ | ⟨b2, _ | ⟨b3, rest3⟩⟩⟩⟩
      · rfl
      · -- shape [b]
        by_cases hT : idx < target
        · simp only [scanLoop.eq_2, scanOffsetSpec.eq_2, if_pos hT]
          split_ifs <;> rfl
        · simp [scanLoop.eq_2, scanOffsetSpec.eq_2, hT]
      · -- shape [b, b1]
        have hb0 : b < 256 := hball b (by simp)
        have hb1 : b1 < 256 := hball b1 (by simp)
        have hl1 : ([b1] : List Nat).length ≤ n := by simp at hl ⊢; omega
        have hmem1 : ∀ x ∈ ([b1] : List Nat), x < 256 :=
          fun x hx => hball x (List.mem_cons_of_mem b hx)
        have ih1 : ∀ j, scanLoop [b1] j target = scanOffsetSpec [b1] j target :=
          fun j => ih [b1] j target hl1 hmem1
        by_cases hT : idx < target
        · by_cases hA : b < 0x80
          · simp [scanLoop.eq_3, scanOffsetSpec.eq_3, hT, hA, ih1]
          · by_cases h2 : 0xC0 ≤ b ∧ b ≤ 0xDF
            · have hm : b &&& 0xE0 = 0xC0 := (mask_E0_iff b hb0).mpr h2
              by_cases hc : 0x80 ≤ b1 ∧ b1 ≤ 0xBF
              · have hcm : b1 &&& 0xC0 = 0x80 := (mask_C0_iff b1 hb1).mpr hc
                simp [scanLoop.eq_3, scanOffsetSpec.eq_3, hT, hA, hm, hcm,
                  h2.1, h2.2, hc.1, hc.2]
              · have hcm : b1 &&& 0xC0 ≠ 0x80 := fun heq => hc ((mask_C0_iff b1 hb1).mp heq)
                simp [scanLoop.eq_3, scanOffsetSpec.eq_3, hT, hA, hm, hcm,
                  h2.1, h2.2, hc, ih1]
            · have hm : ¬ (b &&& 0xE0 = 0xC0) := fun heq => h2 ((mask_E0_iff b hb0).mp heq)
              simp only [scanLoop.eq_3, scanOffsetSpec.eq_3, if_pos hT, if_neg hA,
                if_neg hm, if_neg h2]
              split_ifs <;> simp [ih1]
        · simp [scanLoop.eq_3, scanOffsetSpec.eq_3, hT]
      · -- shape [b, b1, b2]
        have hb0 : b < 256 := hball b (by simp)
        have hb1 : b1 < 256 := hball b1 (by simp)
        have hb2 : b2 < 256 := hball b2 (by simp)
        have hl12 : ([b1, b2] : List Nat).length ≤ n := by simp at hl ⊢; omega
        have hl2 : ([b2] : List Nat).length ≤ n := by simp at hl ⊢; omega
        have hmem12 : ∀ x ∈ ([b1, b2] : List Nat), x < 256 :=
          fun x hx => hball x (List.mem_cons_of_mem b hx)
        have hmem2 : ∀ x ∈ ([b2] : List Nat), x < 256 :=
          fun x hx => hball x (List.mem_cons_of_mem b (List.mem_cons_of_mem b1 hx))
        have ih12 : ∀ j, scanLoop [b1, b2] j target = scanOffsetSpec [b1, b2] j target :=
          fun j => ih [b1, b2] j target hl12 hmem12
        have ih2 : ∀ j, scanLoop [b2] j target = scanOffsetSpec [b2] j target :=
          fun j => ih [b2] j target hl2 hmem2
        by_cases hT : idx < target
        · by_cases hA : b < 0x80
          · simp [scanLoop.eq_4, scanOffsetSpec.eq_4, hT, hA, ih12]
          · by_cases h2 : 0xC0 ≤ b ∧ b ≤ 0xDF
            · have hm : b &&& 0xE0 = 0xC0 := (mask_E0_iff b hb0).mpr h2
              by_cases hc : 0x80 ≤ b1 ∧ b1 ≤ 0xBF
              · have hcm : b1 &&& 0xC0 = 0x80 := (mask_C0_iff b1 hb1).mpr hc
                simp [scanLoop.eq_4, scanOffsetSpec.eq_4, hT, hA, hm, hcm,
                  h2.1, h2.2, hc.1, hc.2, ih2]
              · have hcm : b1 &&& 0xC0 ≠ 0x80 := fun heq => hc ((mask_C0_iff b1 hb1).mp heq)
                simp [scanLoop.eq_4, scanOffsetSpec.eq_4, hT, hA, hm, hcm,
                  h2.1, h2.2, hc, ih12]
            · have hm : ¬ (b &&& 0xE0 = 0xC0) := fun heq => h2 ((mask_E0_iff b hb0).mp heq)
              by_cases h3 : 0xE0 ≤ b ∧ b ≤ 0xEF
              · have hmf : b &&& 0xF0 = 0xE0 := (mask_F0_iff b hb0).mpr h3
                by_cases hc12 : (0x80 ≤ b1 ∧ b1 ≤ 0xBF) ∧ (0x80 ≤ b2 ∧ b2 ≤ 0xBF)
                · have hcm1 : b1 &&& 0xC0 = 0x80 := (mask_C0_iff b1 hb1).mpr hc12.1
                  have hcm2 : b2 &&& 0xC0 = 0x80 := (mask_C0_iff b2 hb2).mpr hc12.2
                  simp [scanLoop.eq_4, scanOffsetSpec.eq_4, hT, hA, hm, hmf, hcm1, hcm2,
                    h2, h3.1, h3.2, hc12.1.1, hc12.1.2, hc12.2.1, hc12.2.2]
                · have hcor : b1 &&& 0xC0 ≠ 0x80 ∨ b2 &&& 0xC0 ≠ 0x80 := by
                    by_cases hx1 : 0x80 ≤ b1 ∧ b1 ≤ 0xBF
                    · right
                      intro heq
                      exact hc12 ⟨hx1, (mask_C0_iff b2 hb2).mp heq⟩
                    · left
                      intro heq
                      exact hx1 ((mask_C0_iff b1 hb1).mp heq)
                  simp [scanLoop.eq_4, scanOffsetSpec.eq_4, hT, hA, hm, hmf, hcor,
                    h2, h3.1, h3.2, hc12, ih12]
              · have hmf : ¬ (b &&& 0xF0 = 0xE0) := fun heq => h3 ((mask_F0_iff b hb0).mp heq)
                simp only [scanLoop.eq_4, scanOffsetSpec.eq_4, if_pos hT, if_neg hA,
                  if_neg hm, if_neg hmf, if_neg h2, if_neg h3]
                split_ifs <;> simp [ih12]
        · simp [scanLoop.eq_4, scanOffsetSpec.eq_4, hT]
      · -- shape b :: b1 :: b2 :: b3 :: rest3
        have hb0 : b < 256 := hball b (by simp)
        have hb1 : b1 < 256 := hball b1 (by simp)
        have hb2 : b2 < 256 := hball b2 (by simp)
        have hb3 : b3 < 256 := hball b3 (by simp)
        have hlen : (b :: b1 :: b2 :: b3 :: rest3).length ≤ n + 1 := hl
        have hl123 : (b1 :: b2 :: b3 :: rest3).length ≤ n := by
          simp only [List.length_cons] at hlen ⊢; omega
        have hl23 : (b2 :: b3 :: rest3).length ≤ n := by
          simp only [List.length_cons] at hlen ⊢; omega
        have hl3 : (b3 :: rest3).length ≤ n := by
          simp only [List.length_cons] at hlen ⊢; omega
        have hl4 : rest3.length ≤ n := by
          simp only [List.length_cons] at hlen ⊢; omega
        have hmem123 : ∀ x ∈ b1 :: b2 :: b3 :: rest3, x < 256 :=
          fun x hx => hball x (List.mem_cons_of_mem b hx)
        have hmem23 : ∀ x ∈ b2 :: b3 :: rest3, x < 256 :=
          fun x hx => hmem123 x (List.mem_cons_of_mem b1 hx)
        have hmem3 : ∀ x ∈ b3 :: rest3, x < 256 :=
          fun x hx => hmem23 x (List.mem_cons_of_mem b2 hx)
        have hmem4 : ∀ x ∈ rest3, x < 256 :=
          fun x hx => hmem3 x (List.mem_cons_of_mem b3 hx)
        have ih123 : ∀ j, scanLoop (b1 :: b2 :: b3 :: rest3) j target
            = scanOffsetSpec (b1 :: b2 :: b3 :: rest3) j target :=
          fun j => ih _ j target hl123 hmem123
        have ih23 : ∀ j, scanLoop (b2 :: b3 :: rest3) j target
            = scanOffsetSpec (b2 :: b3 :: rest3) j target :=
          fun j => ih _ j target hl23 hmem23
        have ih3 : ∀ j, scanLoop (b3 :: rest3) j target
            = scanOffsetSpec (b3 :: rest3) j target :=
          fun j => ih _ j target hl3 hmem3
        have ih4 : ∀ j, scanLoop rest3 j target = scanOffsetSpec rest3 j target :=
          fun j => ih _ j target hl4 hmem4
        by_cases hT : idx < target
        · by_cases hA : b < 0x80
          · simp [scanLoop.eq_5, scanOffsetSpec.eq_5, hT, hA, ih123]
          · by_cases h2 : 0xC0 ≤ b ∧ b ≤ 0xDF
            · have hm : b &&& 0xE0 = 0xC0 := (mask_E0_iff b hb0).mpr h2
              by_cases hc : 0x80 ≤ b1 ∧ b1 ≤ 0xBF
              · have hcm : b1 &&& 0xC0 = 0x80 := (mask_C0_iff b1 hb1).mpr hc
                simp [scanLoop.eq_5, scanOffsetSpec.eq_5, hT, hA, hm, hcm,
                  h2.1, h2.2, hc.1, hc.2, ih23]
              · have hcm : b1 &&& 0xC0 ≠ 0x80 := fun heq => hc ((mask_C0_iff b1 hb1).mp heq)
                simp [scanLoop.eq_5, scanOffsetSpec.eq_5, hT, hA, hm, hcm,
                  h2.1, h2.2, hc, ih123]
            · have hm : ¬ (b &&& 0xE0 = 0xC0) := fun heq => h2 ((mask_E0_iff b hb0).mp heq)
              by_cases h3 : 0xE0 ≤ b ∧ b ≤ 0xEF
              · have hmf : b &&& 0xF0 = 0xE0 := (mask_F0_iff b hb0).mpr h3
                by_cases hc12 : (0x80 ≤ b1 ∧ b1 ≤ 0xBF) ∧ (0x80 ≤ b2 ∧ b2 ≤ 0xBF)
                · have hcm1 : b1 &&& 0xC0 = 0x80 := (mask_C0_iff b1 hb1).mpr hc12.1
                  have hcm2 : b2 &&& 0xC0 = 0x80 := (mask_C0_iff b2 hb2).mpr hc12.2
                  simp [scanLoop.eq_5, scanOffsetSpec.eq_5, hT, hA, hm, hmf, hcm1, hcm2,
                    h2, h3.1, h3.2, hc12.1.1, hc12.1.2, hc12.2.1, hc12.2.2, ih3]
                · have hcor : b1 &&& 0xC0 ≠ 0x80 ∨ b2 &&& 0xC0 ≠ 0x80 := by
                    by_cases hx1 : 0x80 ≤ b1 ∧ b1 ≤ 0xBF
                    · right
                      intro heq
                      exact hc12 ⟨hx1, (mask_C0_iff b2 hb2).mp heq⟩
                    · left
                      intro heq
                      exact hx1 ((mask_C0_iff b1 hb1).mp heq)
                  simp [scanLoop.eq_5, scanOffsetSpec.eq_5, hT, hA, hm, hmf, hcor,
                    h2, h3.1, h3.2, hc12, ih123]
              · have hmf : ¬ (b &&& 0xF0 = 0xE0) := fun heq => h3 ((mask_F0_iff b hb0).mp heq)
                by_cases h4 : 0xF0 ≤ b ∧ b ≤ 0xF7
                · have hmg : b &&& 0xF8 = 0xF0 := (mask_F8_iff b hb0).mpr h4
                  by_cases hc123 : (0x80 ≤ b1 ∧ b1 ≤ 0xBF) ∧ (0x80 ≤ b2 ∧ b2 ≤ 0xBF) ∧
                      (0x80 ≤ b3 ∧ b3 ≤ 0xBF)
                  · have hcm1 : b1 &&& 0xC0 = 0x80 := (mask_C0_iff b1 hb1).mpr hc123.1
                    have hcm2 : b2 &&& 0xC0 = 0x80 := (mask_C0_iff b2 hb2).mpr hc123.2.1
                    have hcm3 : b3 &&& 0xC0 = 0x80 := (mask_C0_iff b3 hb3).mpr hc123.2.2
                    simp [scanLoop.eq_5, scanOffsetSpec.eq_5, hT, hA, hm, hmf, hmg,
                      hcm1, hcm2, hcm3, h2, h3, h4.1, h4.2, hc123.1.1, hc123.1.2,
                      hc123.2.1.1, hc123.2.1.2, hc123.2.2.1, hc123.2.2.2, ih4]
                  · have hcor : b1 &&& 0xC0 ≠ 0x80 ∨ b2 &&& 0xC0 ≠ 0x80 ∨
                        b3 &&& 0xC0 ≠ 0x80 := by
                      by_cases hx1 : 0x80 ≤ b1 ∧ b1 ≤ 0xBF
                      · by_cases hx2 : 0x80 ≤ b2 ∧ b2 ≤ 0xBF
                        · right; right
                          intro heq
                          exact hc123 ⟨hx1, hx2, (mask_C0_iff b3 hb3).mp heq⟩
                        · right; left
                          intro heq
                          exact hx2 ((mask_C0_iff b2 hb2).mp heq)
                      · left
                        intro heq
                        exact hx1 ((mask_C0_iff b1 hb1).mp heq)
                    simp [scanLoop.eq_5, scanOffsetSpec.eq_5, hT, hA, hm, hmf, hmg, hcor,
                      h2, h3, h4.1, h4.2, hc123, ih123]
                · have hmg : ¬ (b &&& 0xF8 = 0xF0) := fun heq => h4 ((mask_F8_iff b hb0).mp heq)
                  simp [scanLoop.eq_5, scanOffsetSpec.eq_5, if_pos hT, if_neg hA, if_neg hm,
                    if_neg hmf, if_neg hmg, if_neg h2, if_neg h3, if_neg h4, ih123]
        · simp [scanLoop.eq_5, scanOffsetSpec.eq_5, hT]
  intro l idx target
  exact main l.length l idx target le_rfl

/-! ### View-level helper lemmas -/

/-- `length()` computed without a cache (counting routine) equals the
length of the decoded UTF-16 form that the cache would hold. -/
theorem Simple.String.length_eq_utf16_length (s : Simple.String) :
    s.length = s.utf16.length := by
  unfold Simple.String.length Simple.String.utf16
  by_cases h : s.length_ = 0
  · simp [h, Simple.String.viewBytes, get_utf16]
  · simp [h, count_eq_decode_length]

theorem Simple.String.viewBytes_length (s : Simple.String) (h : s.wf) :
    s.viewBytes.length = s.length_ := by
  unfold Simple.String.viewBytes
  unfold Simple.String.wf at h
  simp [List.length_take, List.length_drop]
  omega

theorem Simple.String.viewBytes_getD (s : Simple.String) (i : Nat) (hi : i < s.length_) :
    s.viewBytes.getD i 0 = s.data_.getD (s.offset_ + i) 0 := by
  unfold Simple.String.viewBytes
  rw [List.getD_eq_getElem?_getD, List.getD_eq_getElem?_getD,
    List.getElem?_take_of_lt hi, List.getElem?_drop]

/-! ### Surrogate pairing of the decoder output -/

theorem wp_cons_plain (a : Nat) (t : List Nat) (h : a < 0xD800 ∨ 0xDFFF < a) :
    wellPaired (a :: t) = wellPaired t := by
  have hh : isHighSurrogate a = false := by
    simp only [isHighSurrogate, decide_eq_false_iff_not]
    omega
  have hl : isLowSurrogate a = false := by
    simp only [isLowSurrogate, decide_eq_false_iff_not]
    omega
  cases t with
  | nil => simp [wellPaired, hh, hl]
  | cons c t2 => simp [wellPaired, hh, hl]

theorem wp_fffd_cons (t : List Nat) : wellPaired (0xFFFD :: t) = wellPaired t :=
  wp_cons_plain _ _ (by omega)

theorem wp_cons_pair (a c : Nat) (t : List Nat) (h1 : 0xD800 ≤ a) (h2 : a ≤ 0xDBFF)
    (h3 : 0xDC00 ≤ c) (h4 : c ≤ 0xDFFF) :
    wellPaired (a :: c :: t) = wellPaired t := by
  have hh : isHighSurrogate a = true := by
    simp only [isHighSurrogate, decide_eq_true_eq]
    omega
  have hlc : isLowSurrogate c = true := by
    simp only [isLowSurrogate, decide_eq_true_eq]
    omega
  simp [wellPaired, hh, hlc]

set_option maxHeartbeats 1600000 in
set_option maxRecDepth 4000 in
/-- The spec-formulated decoder emits no unpaired surrogate. -/
theorem wellPaired_specDecode : ∀ l : List Nat, wellPaired (specDecode l) = true := by
  intro l
  induction l using specDecode.induct <;>
    simp [specDecode, *] <;>
    (try simp only [wp_fffd_cons]) <;>
    (first
      | rfl
      | assumption
      | (rw [wp_cons_pair _ _ _ (by omega) (by omega) (by omega) (by omega)]
         assumption)
      | (rw [wp_cons_plain _ _ (by omega)]
         first
           | assumption
           | rfl))

theorem high_not_low (x : Nat) (h : isHighSurrogate x = true) : isLowSurrogate x = false := by
  simp only [isHighSurrogate, decide_eq_true_eq] at h
  simp only [isLowSurrogate, decide_eq_false_iff_not]
  omega

theorem low_not_high (x : Nat) (h : isLowSurrogate x = true) : isHighSurrogate x = false := by
  simp only [isLowSurrogate, decide_eq_true_eq] at h
  simp only [isHighSurrogate, decide_eq_false_iff_not]
  omega

/-- The decoder output is well paired for every byte list (bytes are
values below 256, as produced by the C++ `unsigned char` reads). -/
theorem wellPaired_get_utf16 (l : List Nat) (h : ∀ b ∈ l, b < 256) :
    wellPaired (get_utf16 l) = true := by
  rw [get_utf16_eq_specDecode l h]
  exact wellPaired_specDecode l

/-- Index reading of `wellPaired`: every high surrogate is immediately
followed by a low surrogate, every low surrogate immediately preceded by
a high surrogate. -/
theorem wellPaired_index : ∀ u : List Nat, wellPaired u = true → ∀ i, i < u.length →
    (isHighSurrogate (u.getD i 0) = true →
      i + 1 < u.length ∧ isLowSurrogate (u.getD (i + 1) 0) = true) ∧
    (isLowSurrogate (u.getD i 0) = true →
      1 ≤ i ∧ isHighSurrogate (u.getD (i - 1) 0) = true) := by
  intro u
  induction u using wellPaired.induct with
  | case1 =>
    intro _ i hi
    simp at hi
  | case2 a =>
    intro hwp i hi
    simp only [wellPaired, Bool.and_eq_true, Bool.not_eq_true'] at hwp
    have hi0 : i = 0 := by simp at hi; omega
    subst hi0
    constructor
    · intro hhigh
      rw [List.getD_cons_zero] at hhigh
      rw [hwp.1] at hhigh
      cases hhigh
    · intro hlow
      rw [List.getD_cons_zero] at hlow
      rw [hwp.2] at hlow
      cases hlow
  | case3 a b rest2 hha ih =>
    intro hwp i hi
    rw [show wellPaired (a :: b :: rest2)
        = (if isHighSurrogate a then isLowSurrogate b && wellPaired rest2
           else !isLowSurrogate a && wellPaired (b :: rest2)) from rfl,
      if_pos hha, Bool.and_eq_true] at hwp
    obtain ⟨hlb, hwp2⟩ := hwp
    have hIH := ih hwp2
    rcases i with _ | i1
    · constructor
      · intro _
        refine ⟨by simp, ?_⟩
        simpa using hlb
      · intro hlow
        rw [List.getD_cons_zero] at hlow
        rw [high_not_low a hha] at hlow
        cases hlow
    · rcases i1 with _ | j
      · constructor
        · intro hhigh
          rw [List.getD_cons_succ, List.getD_cons_zero] at hhigh
          rw [low_not_high b hlb] at hhigh
          cases hhigh
        · intro _
          refine ⟨by omega, ?_⟩
          simpa using hha
      · have hj : j < rest2.length := by simp at hi; omega
        have hIHj := hIH j hj
        constructor
        · intro hhigh
          rw [List.getD_cons_succ, List.getD_cons_succ] at hhigh
          obtain ⟨h1, h2⟩ := hIHj.1 hhigh
          refine ⟨by simp; omega, ?_⟩
          rw [List.getD_cons_succ, List.getD_cons_succ]
          exact h2
        · intro hlow
          rw [List.getD_cons_succ, List.getD_cons_succ] at hlow
          obtain ⟨h1, h2⟩ := hIHj.2 hlow
          refine ⟨by omega, ?_⟩
          obtain ⟨k, rfl⟩ : ∃ k, j = k + 1 := ⟨j - 1, by omega⟩
          rw [show k + 1 + 2 - 1 = k + 2 from rfl, List.getD_cons_succ, List.getD_cons_succ]
          simpa using h2
  | case4 a b rest2 hha ih =>
    intro hwp i hi
    rw [show wellPaired (a :: b :: rest2)
        = (if isHighSurrogate a then isLowSurrogate b && wellPaired rest2
           else !isLowSurrogate a && wellPaired (b :: rest2)) from rfl,
      if_neg hha, Bool.and_eq_true, Bool.not_eq_true'] at hwp
    obtain ⟨hla, hwp2⟩ := hwp
    have hIH := ih hwp2
    rcases i with _ | j
    · constructor
      · intro hhigh
        rw [List.getD_cons_zero] at hhigh
        exact absurd hhigh hha
      · intro hlow
        rw [List.getD_cons_zero] at hlow
        rw [hla] at hlow
        cases hlow
    · have hj : j < (b :: rest2).length := by simp at hi ⊢; omega
      have hIHj := hIH j hj
      constructor
      · intro hhigh
        rw [List.getD_cons_succ] at hhigh
        obtain ⟨h1, h2⟩ := hIHj.1 hhigh
        refine ⟨by simp at h1 ⊢; omega, ?_⟩
        rw [List.getD_cons_succ]
        exact h2
      · intro hlow
        rw [List.getD_cons_succ] at hlow
        obtain ⟨h1, h2⟩ := hIHj.2 hlow
        refine ⟨by omega, ?_⟩
        obtain ⟨k, rfl⟩ : ∃ k, j = k + 1 := ⟨j - 1, by omega⟩
        rw [show k + 1 + 1 - 1 = k + 1 from rfl, List.getD_cons_succ]
        simpa using h2

/-! ### Analysis of the code-point counting loop -/

theorem drop_one_getD (u : List Nat) (i : Nat) (h : i < u.length) :
    List.drop i u = u.getD i 0 :: List.drop (i + 1) u := by
  rw [List.drop_eq_getElem_cons h]
  congr 1
  rw [List.getD_eq_getElem?_getD, List.getElem?_eq_getElem h]
  rfl

set_option maxHeartbeats 1000000 in
/-- The loop of `code_point_count` counts at most `end - i` scalars over a
full-length window, with equality exactly when the window holds no
surrogate pair. -/
theorem cpcLoop_le_iff (u : List Nat) : ∀ i, Simple.cpcLoop u i u.length ≤ u.length - i ∧
    (Simple.cpcLoop u i u.length = u.length - i ↔
      hasSurrogatePair (List.drop i u) = false) := by
  have main : ∀ k i, u.length - i ≤ k →
      Simple.cpcLoop u i u.length ≤ u.length - i ∧
      (Simple.cpcLoop u i u.length = u.length - i ↔
        hasSurrogatePair (List.drop i u) = false) := by
    intro k
    induction k with
    | zero =>
      intro i hk
      have hi : u.length ≤ i := by omega
      have hloop : Simple.cpcLoop u i u.length = 0 := by
        rw [Simple.cpcLoop.eq_def]
        simp [Nat.not_lt.mpr hi]
      have hdrop : List.drop i u = [] := List.drop_eq_nil_of_le hi
      refine ⟨by omega, ?_⟩
      rw [hloop, hdrop]
      simp [hasSurrogatePair]
      omega
    | succ k ihk =>
      intro i hk
      by_cases hi : i < u.length
      · have step : Simple.cpcLoop u i u.length =
            if 0xD800 ≤ u.getD i 0 ∧ u.getD i 0 ≤ 0xDBFF ∧ i + 1 < u.length ∧
               0xDC00 ≤ u.getD (i + 1) 0 ∧ u.getD (i + 1) 0 ≤ 0xDFFF then
              1 + Simple.cpcLoop u (i + 2) u.length
            else 1 + Simple.cpcLoop u (i + 1) u.length := by
          conv_lhs => rw [Simple.cpcLoop.eq_def]
          rw [if_pos hi]
        by_cases hp : 0xD800 ≤ u.getD i 0 ∧ u.getD i 0 ≤ 0xDBFF ∧ i + 1 < u.length ∧
            0xDC00 ≤ u.getD (i + 1) 0 ∧ u.getD (i + 1) 0 ≤ 0xDFFF
        · rw [step, if_pos hp]
          obtain ⟨hp1, hp2, hp3, hp4, hp5⟩ := hp
          obtain ⟨le2, _⟩ := ihk (i + 2) (by omega)
          have hpair : hasSurrogatePair (List.drop i u) = true := by
            rw [drop_one_getD u i hi, drop_one_getD u (i + 1) hp3]
            simp only [hasSurrogatePair, Bool.or_eq_true, Bool.and_eq_true]
            left
            constructor
            · simp only [isHighSurrogate, decide_eq_true_eq]
              exact ⟨hp1, hp2⟩
            · simp only [isLowSurrogate, decide_eq_true_eq]
              exact ⟨hp4, hp5⟩
          rw [hpair]
          constructor
          · omega
          · constructor
            · intro habs
              omega
            · intro habs
              cases habs
        · rw [step, if_neg hp]
          obtain ⟨le1, iff1⟩ := ihk (i + 1) (by omega)
          have hsame : hasSurrogatePair (List.drop i u) =
              hasSurrogatePair (List.drop (i + 1) u) := by
            by_cases h1 : i + 1 < u.length
            · rw [drop_one_getD u i hi, drop_one_getD u (i + 1) h1]
              have hff : (isHighSurrogate (u.getD i 0) &&
                  isLowSurrogate (u.getD (i + 1) 0)) = false := by
                simp only [Bool.and_eq_false_iff, isHighSurrogate, isLowSurrogate,
                  decide_eq_false_iff_not]
                by_cases hA : 0xD800 ≤ u.getD i 0 ∧ u.getD i 0 ≤ 0xDBFF
                · right
                  intro hB
                  exact hp ⟨hA.1, hA.2, h1, hB.1, hB.2⟩
                · left
                  exact hA
              simp only [hasSurrogatePair, hff, Bool.false_or]
            · have hd1 : List.drop (i + 1) u = [] := List.drop_eq_nil_of_le (by omega)
              rw [drop_one_getD u i hi, hd1]
              simp [hasSurrogatePair]
          refine ⟨by omega, ?_⟩
          rw [hsame, ← iff1]
          omega
      · have hloop : Simple.cpcLoop u i u.length = 0 := by
          rw [Simple.cpcLoop.eq_def]
          simp [hi]
        have hdrop : List.drop i u = [] := List.drop_eq_nil_of_le (by omega)
        refine ⟨by omega, ?_⟩
        rw [hloop, hdrop]
        simp [hasSurrogatePair]
        omega
  intro i
  exact main (u.length - i) i le_rfl

/-! ### Claim theorems -/

/-- C1: the UTF-8 decoder `get_utf16` is total (a Lean function over all
byte lists), consumes the byte range left to right, and implements the
section 4.1 substitution policy: it coincides with the range-formulated
spec decoder `specDecode` (structurally incomplete sequence: one U+FFFD,
advance 1; structurally complete 2-, 3- or 4-byte sequence with overlong,
surrogate-range, or above-0x10FFFF value: exactly 2/3/4 U+FFFD, advance
2/3/4; valid sequence: one unit or a surrogate pair; stray continuation
or 11111xxx lead: one U+FFFD, advance 1) on every list of bytes. -/
theorem C1_decoder_policy : ∀ l : List Nat, (∀ b ∈ l, b < 256) →
    get_utf16 l = specDecode l :=
  get_utf16_eq_specDecode

theorem C1_decoder_policy_witness :
    (∀ b ∈ ([0x41, 0xC0, 0x58, 0xE0, 0x80, 0x80, 0xF0, 0x9D, 0x92, 0x9C, 0xFF] : List Nat),
      b < 256) ∧
    get_utf16 [0x41, 0xC0, 0x58, 0xE0, 0x80, 0x80, 0xF0, 0x9D, 0x92, 0x9C, 0xFF]
      = specDecode [0x41, 0xC0, 0x58, 0xE0, 0x80, 0x80, 0xF0, 0x9D, 0x92, 0x9C, 0xFF] :=
  ⟨by decide, C1_decoder_policy _ (by decide)⟩

/-- C2: `detail::count_utf16_code_units` returns exactly the number of
UTF-16 code units that `get_utf16` produces for the same bytes, and
consequently `length()` computed without a populated cache equals the
length of the cached decoded form. -/
theorem C2_count_agrees_with_decoder :
    (∀ l : List Nat, count_utf16_code_units l = (get_utf16 l).length) ∧
    (∀ s : Simple.String, s.length = s.utf16.length) :=
  ⟨count_eq_decode_length, Simple.String.length_eq_utf16_length⟩

/-- C3, counterexample: on the overlong sequence `E0 80 80` with target
unit index 1, the byte-offset scan of `substring` returns 3 (it counts
the structurally complete 3-byte sequence as one unit without re-checking
its value), but the decoded form of that 3-byte prefix has 3 units, not
1 — so the returned offset is not the length of the byte prefix whose
decoded form has `target_unit_index` units. -/
theorem C3_counterexample :
    unit_index_to_byte_offset [0xE0, 0x80, 0x80] 1 = 3 ∧
    (get_utf16 (List.take (unit_index_to_byte_offset [0xE0, 0x80, 0x80] 1)
      [0xE0, 0x80, 0x80])).length ≠ 1 := by
  decide

/-- C3, amended: the byte-offset scan used by `substring` counts emitted
units structurally only: a complete 2- or 3-byte sequence counts as one
unit regardless of its assembled value, a complete 4-byte sequence as two
units, and every other byte (incomplete lead, stray continuation,
11111xxx) as one unit for one byte; the scan equals the spec-side
structural mapper `scanOffsetSpec` on every byte list. -/
theorem C3_scan_structural : ∀ (bytes : List Nat) (target : Nat),
    (∀ b ∈ bytes, b < 256) →
    unit_index_to_byte_offset bytes target = scanOffsetSpec bytes 0 target :=
  fun bytes target h => scanLoop_eq_scanOffsetSpec bytes 0 target h

theorem C3_scan_structural_witness :
    (∀ b ∈ ([0x41, 0xE0, 0x80, 0x80, 0xF0, 0x9D, 0x92, 0x9C] : List Nat), b < 256) ∧
    unit_index_to_byte_offset [0x41, 0xE0, 0x80, 0x80, 0xF0, 0x9D, 0x92, 0x9C] 3
      = scanOffsetSpec [0x41, 0xE0, 0x80, 0x80, 0xF0, 0x9D, 0x92, 0x9C] 0 3 :=
  ⟨by decide, C3_scan_structural _ 3 (by decide)⟩

set_option maxRecDepth 4000 in
/-- C4: `code_point_at(s, i)` fails (throws, modelled as `none`) iff
`i ≥` the UTF-16 unit count of `s`; otherwise, if the unit at `i` is a
high surrogate and a unit at `i + 1` exists and is a low surrogate, it
returns `0x10000 + (high - 0xD800) * 0x400 + (low - 0xDC00)` (the claim's
`(high - 0xD800) << 10` written multiplicatively), and in every other
case it returns the lone unit at `i`. -/
theorem C4_code_point_at : ∀ (s : Simple.String) (i : Nat),
    (s.code_point_at i = none ↔ s.length ≤ i) ∧
    (i < s.length →
      s.code_point_at i = some (
        if 0xD800 ≤ s.utf16.getD i 0 ∧ s.utf16.getD i 0 ≤ 0xDBFF ∧ i + 1 < s.length ∧
           0xDC00 ≤ s.utf16.getD (i + 1) 0 ∧ s.utf16.getD (i + 1) 0 ≤ 0xDFFF
        then 0x10000 + (s.utf16.getD i 0 - 0xD800) * 0x400 + (s.utf16.getD (i + 1) 0 - 0xDC00)
        else s.utf16.getD i 0)) := by
  intro s i
  have hlen := Simple.String.length_eq_utf16_length s
  constructor
  · rw [hlen]
    simp only [Simple.String.code_point_at, ge_iff_le]
    by_cases h : s.utf16.length ≤ i
    · simp [h]
    · simp only [if_neg h, h, iff_false]
      split_ifs <;> simp_all
  · intro hi
    rw [hlen] at hi
    simp only [Simple.String.code_point_at, ge_iff_le, hlen]
    rw [if_neg (by omega : ¬ s.utf16.length ≤ i)]
    by_cases hP : 0xD800 ≤ s.utf16.getD i 0 ∧ s.utf16.getD i 0 ≤ 0xDBFF ∧
        i + 1 < s.utf16.length
    · rw [if_pos hP]
      by_cases hQ : 0xDC00 ≤ s.utf16.getD (i + 1) 0 ∧ s.utf16.getD (i + 1) 0 ≤ 0xDFFF
      · rw [if_pos hQ, if_pos ⟨hP.1, hP.2.1, hP.2.2, hQ.1, hQ.2⟩, Nat.shiftLeft_eq]
      · rw [if_neg hQ, if_neg (fun hh => hQ ⟨hh.2.2.2.1, hh.2.2.2.2⟩)]
    · rw [if_neg hP, if_neg (fun hh => hP ⟨hh.1, hh.2.1, hh.2.2.1⟩)]

theorem C4_code_point_at_witness :
    1 < (Simple.String.mk [0x41, 0xF0, 0x9D, 0x92, 0x9C, 0x42] 0 6).length ∧
    Simple.String.code_point_at ⟨[0x41, 0xF0, 0x9D, 0x92, 0x9C, 0x42], 0, 6⟩ 1 = some (
      let s : Simple.String := ⟨[0x41, 0xF0, 0x9D, 0x92, 0x9C, 0x42], 0, 6⟩
      if 0xD800 ≤ s.utf16.getD 1 0 ∧ s.utf16.getD 1 0 ≤ 0xDBFF ∧ 1 + 1 < s.length ∧
         0xDC00 ≤ s.utf16.getD (1 + 1) 0 ∧ s.utf16.getD (1 + 1) 0 ≤ 0xDFFF
      then 0x10000 + (s.utf16.getD 1 0 - 0xD800) * 0x400 + (s.utf16.getD (1 + 1) 0 - 0xDC00)
      else s.utf16.getD 1 0) :=
  ⟨by decide, (C4_code_point_at ⟨[0x41, 0xF0, 0x9D, 0x92, 0x9C, 0x42], 0, 6⟩ 1).2 (by decide)⟩

/-- C5: `equals(a, b)` returns true iff the two views have identical byte
length and identical bytes over their full ranges (so the fast path can
only answer true when that condition holds), and the precomposed and
combining-mark encodings of "café" compare unequal. -/
theorem C5_equals_iff_bytes : (∀ a b : Simple.String, a.wf → b.wf →
    (a.equals b = true ↔ a.length_ = b.length_ ∧ a.viewBytes = b.viewBytes)) ∧
    Simple.String.equals ⟨[0x63, 0x61, 0x66, 0xC3, 0xA9], 0, 5⟩
      ⟨[0x63, 0x61, 0x66, 0x65, 0xCC, 0x81], 0, 6⟩ = false := by
  constructor
  · intro a b ha hb
    unfold Simple.String.equals
    split_ifs with hfast hne
    · obtain ⟨hd, ho, hl⟩ := hfast
      simp [Simple.String.viewBytes, hd, ho, hl]
    · constructor
      · intro h
        cases h
      · rintro ⟨h, _⟩
        exact absurd h hne
    · have hlen : a.length_ = b.length_ := not_not.mp hne
      rw [decide_eq_true_eq]
      constructor
      · intro hall
        refine ⟨hlen, ?_⟩
        apply List.ext_getElem
        · rw [Simple.String.viewBytes_length a ha, Simple.String.viewBytes_length b hb, hlen]
        · intro n h1 h2
          have hna : n < a.length_ := by rwa [Simple.String.viewBytes_length a ha] at h1
          have hnb : n < b.length_ := by rwa [Simple.String.viewBytes_length b hb] at h2
          have e1 : a.viewBytes.getD n 0 = a.viewBytes[n] := by
            rw [List.getD_eq_getElem?_getD, List.getElem?_eq_getElem h1]
            rfl
          have e2 : b.viewBytes.getD n 0 = b.viewBytes[n] := by
            rw [List.getD_eq_getElem?_getD, List.getElem?_eq_getElem h2]
            rfl
          rw [← e1, ← e2, Simple.String.viewBytes_getD a n hna,
            Simple.String.viewBytes_getD b n hnb]
          exact hall n (by omega)
      · rintro ⟨_, hveq⟩ n hn
        have hna : n < a.length_ := by omega
        have hnb : n < b.length_ := by omega
        rw [← Simple.String.viewBytes_getD a n hna, ← Simple.String.viewBytes_getD b n hnb,
          hveq]
  · decide

theorem C5_equals_iff_bytes_witness :
    Simple.String.wf ⟨[0x61, 0x62], 0, 2⟩ ∧ Simple.String.wf ⟨[0x61, 0x62], 1, 1⟩ ∧
    (Simple.String.equals ⟨[0x61, 0x62], 0, 2⟩ ⟨[0x61, 0x62], 1, 1⟩ = true ↔
      (Simple.String.mk [0x61, 0x62] 0 2).length_ = (Simple.String.mk [0x61, 0x62] 1 1).length_ ∧
      (Simple.String.mk [0x61, 0x62] 0 2).viewBytes
        = (Simple.String.mk [0x61, 0x62] 1 1).viewBytes) :=
  ⟨by decide, by decide, C5_equals_iff_bytes.1 _ _ (by decide) (by decide)⟩

/-- C6: `substring(0, length())` succeeds and returns the original view
itself, and for every `b ≤ length()`, `substring(b, b)` succeeds and
returns an empty view whose `length()` is 0. -/
theorem C6_substring_full_and_empty : ∀ s : Simple.String,
    s.substring 0 s.length = some s ∧
    (∀ b, b ≤ s.length → ∃ t, s.substring b b = some t ∧ t.length = 0) := by
  intro s
  have hlen := Simple.String.length_eq_utf16_length s
  constructor
  · rw [hlen]
    simp [Simple.String.substring]
  · intro b hb
    rw [hlen] at hb
    have h1 : ¬ (b > s.utf16.length) := by omega
    by_cases h4 : b = 0 ∧ b = s.utf16.length
    · refine ⟨s, ?_, ?_⟩
      · simp [Simple.String.substring, h1, h4.1, h4.2.symm]
      · rw [hlen]
        omega
    · refine ⟨⟨[], 0, 0⟩, ?_, ?_⟩
      · simp only [Simple.String.substring, gt_iff_lt]
        rw [if_neg (by omega), if_neg (by omega), if_neg (by omega), if_neg h4]
        simp
      · simp [Simple.String.length]

theorem C6_substring_witness :
    (1 : Nat) ≤ (Simple.String.mk [0x61, 0x62] 0 2).length ∧
    (∃ t, (Simple.String.mk [0x61, 0x62] 0 2).substring 1 1 = some t ∧ t.length = 0) :=
  ⟨by decide, (C6_substring_full_and_empty _).2 1 (by decide)⟩

/-- C7: `code_point_count(0, length())` succeeds, is at most `length()`,
and attains `length()` exactly when the decoded UTF-16 form has no
adjacent high/low surrogate pair. -/
theorem C7_code_point_count_le : ∀ s : Simple.String,
    ∃ n, s.code_point_count 0 s.length = some n ∧ n ≤ s.length ∧
      (n = s.length ↔ hasSurrogatePair s.utf16 = false) := by
  intro s
  have hlen := Simple.String.length_eq_utf16_length s
  obtain ⟨hle, hiff⟩ := cpcLoop_le_iff s.utf16 0
  refine ⟨Simple.cpcLoop s.utf16 0 s.utf16.length, ?_, ?_, ?_⟩
  · rw [hlen]
    simp [Simple.String.code_point_count]
  · rw [hlen]
    omega
  · rw [hlen]
    simpa using hiff

/-- C8, counterexample: with an empty prefix but an out-of-bounds offset
(2 on a 1-unit string), `startsWith` throws (modelled `none`) rather than
returning true, so the empty prefix does not match "for every offset
argument". -/
theorem C8_counterexample :
    Simple.String.startsWith ⟨[0x61], 0, 1⟩ ⟨[], 0, 0⟩ 2 = none := by
  decide

/-- C8, amended: an empty prefix matches at every offset that passes the
bounds check (`offset ≤ length()`), and an empty suffix always matches. -/
theorem C8_empty_affix_matches : (∀ (s p : Simple.String) (offset : Nat), p.length = 0 →
      offset ≤ s.length → s.startsWith p offset = some true) ∧
    (∀ (s q : Simple.String), q.length = 0 → s.endsWith q = true) := by
  constructor
  · intro s p offset hp hoff
    have hps := Simple.String.length_eq_utf16_length p
    have hss := Simple.String.length_eq_utf16_length s
    simp only [Simple.String.startsWith]
    rw [if_neg (by omega : ¬ offset > s.utf16.length), if_pos (by omega : p.utf16.length = 0)]
  · intro s q hq
    have hqs := Simple.String.length_eq_utf16_length q
    simp only [Simple.String.endsWith]
    rw [if_pos (by omega : q.utf16.length = 0)]

theorem C8_empty_affix_matches_witness :
    (Simple.String.mk [] 0 0).length = 0 ∧
    (1 : Nat) ≤ (Simple.String.mk [0x61, 0x62] 0 2).length ∧
    Simple.String.startsWith ⟨[0x61, 0x62], 0, 2⟩ ⟨[], 0, 0⟩ 1 = some true ∧
    Simple.String.endsWith ⟨[0x61, 0x62], 0, 2⟩ ⟨[], 0, 0⟩ = true :=
  ⟨by decide, by decide, C8_empty_affix_matches.1 _ _ 1 (by decide) (by decide),
    C8_empty_affix_matches.2 _ _ (by decide)⟩

/-- C9: the decoded UTF-16 sequence contains no unpaired surrogate: every
high surrogate is immediately followed by a low surrogate, and every low
surrogate is immediately preceded by a high surrogate. -/
theorem C9_no_unpaired_surrogates : ∀ (l : List Nat), (∀ b ∈ l, b < 256) →
    ∀ i, i < (get_utf16 l).length →
    (isHighSurrogate ((get_utf16 l).getD i 0) = true →
      i + 1 < (get_utf16 l).length ∧ isLowSurrogate ((get_utf16 l).getD (i + 1) 0) = true) ∧
    (isLowSurrogate ((get_utf16 l).getD i 0) = true →
      1 ≤ i ∧ isHighSurrogate ((get_utf16 l).getD (i - 1) 0) = true) :=
  fun l hl => wellPaired_index (get_utf16 l) (wellPaired_get_utf16 l hl)

theorem C9_no_unpaired_surrogates_witness :
    (∀ b ∈ ([0xF0, 0x90, 0x80, 0x80] : List Nat), b < 256) ∧
    0 < (get_utf16 [0xF0, 0x90, 0x80, 0x80]).length ∧
    ((isHighSurrogate ((get_utf16 [0xF0, 0x90, 0x80, 0x80]).getD 0 0) = true →
      0 + 1 < (get_utf16 [0xF0, 0x90, 0x80, 0x80]).length ∧
      isLowSurrogate ((get_utf16 [0xF0, 0x90, 0x80, 0x80]).getD (0 + 1) 0) = true) ∧
     (isLowSurrogate ((get_utf16 [0xF0, 0x90, 0x80, 0x80]).getD 0 0) = true →
      1 ≤ 0 ∧ isHighSurrogate ((get_utf16 [0xF0, 0x90, 0x80, 0x80]).getD (0 - 1) 0) = true)) :=
  ⟨by decide, by decide, C9_no_unpaired_surrogates _ (by decide) 0 (by decide)⟩

/-- C10: `is_empty()` is true iff `length()` is 0: the byte-length test
agrees with the UTF-16 unit count because every decoding step consumes at
least one byte and emits at least one unit. -/
theorem C10_is_empty_iff_length_zero : ∀ s : Simple.String, s.wf →
    (s.is_empty = true ↔ s.length = 0) := by
  intro s hwf
  unfold Simple.String.is_empty Simple.String.length
  by_cases h : s.length_ = 0
  · simp [h]
  · rw [if_neg h]
    constructor
    · intro habs
      exact absurd (Nat.beq_eq_true_eq s.length_ 0 ▸ habs : s.length_ = 0) h
    · intro hcount
      exfalso
      have hne : s.viewBytes ≠ [] := by
        intro hv
        have hvl := Simple.String.viewBytes_length s hwf
        rw [hv] at hvl
        simp at hvl
        exact h hvl.symm
      have hnn := get_utf16_ne_nil s.viewBytes hne
      rw [count_eq_decode_length] at hcount
      exact hnn (List.length_eq_zero.mp hcount)

theorem C10_is_empty_iff_length_zero_witness :
    Simple.String.wf ⟨[0x61], 0, 1⟩ ∧
    (Simple.String.is_empty ⟨[0x61], 0, 1⟩ = true ↔ Simple.String.length ⟨[0x61], 0, 1⟩ = 0) :=
  ⟨by decide, C10_is_empty_iff_length_zero _ (by decide)⟩

